import Mathlib

set_option autoImplicit false

/-!
Verification of the `MilvusLTM` long-term-memory store
(`src/omagent-core/src/omagent_core/memories/ltms/ltm_milvus.py`).

The store is a facade over an external Milvus connection.  We embed its
operations as pure functions over an explicit state:

* a `MilvusState` holds the collection-existence flag, the collection's
  embedding dimension `dim` (fixed at creation from the store's configured
  dimension), and the list of stored records;
* Python exceptions become explicit error values; `__setitem__` returns the
  state reached so far together with an optional error, because a raised
  exception does not roll back the side effects already performed;
* `pickle.dumps` / `base64.b64encode` and their inverses are external
  standard-library collaborators; we model them as an exact sealed encoding
  (a wrapper that decoding unwraps), which is precisely their contract;
* Milvus itself is an external collaborator: key-filter queries are embedded
  as list filters over the records, `insert` appends a record after
  validating the vector dimension against the collection schema (Milvus
  rejects wrong-dimension vectors and does not deduplicate primary keys on
  insert), and vector `search` results are passed to `get_by_vector`'s
  post-processing as an explicit list of scored matches.

Python floats carried by the store (embedding entries, similarity scores)
are modelled as rationals: the store never computes with them, it only
stores, forwards and compares them.
-/

/-- Structured Python values used as payloads (`value["value"]` in the
source): strings, integers and pairs are enough to exercise nesting. -/
inductive Payload where
  | pstr (s : String)
  | pint (n : Int)
  | ppair (a b : Payload)
deriving DecidableEq, Repr

/-- Result of `pickle.dumps` followed by `base64.b64encode(...).decode("utf-8")`.
Modelled from the standard library's contract: a sealed string that decodes
back to an equal value.  We keep the encoded payload as a wrapped field so
that decoding is exact. -/
structure B64Pickle where
  data : Payload
deriving DecidableEq, Repr

/-- `base64.b64encode(pickle.dumps v).decode("utf-8")` (lines 97-98). -/
def pickle_dumps_b64 (p : Payload) : B64Pickle := ⟨p⟩

/-- `pickle.loads(base64.b64decode v)` (lines 76-77). -/
def pickle_loads_b64 (e : B64Pickle) : Payload := e.data

/-- One live Milvus record: the schema of `_create_collection` (lines 27-41):
a primary-key string `key`, the base64-pickled `value`, and the embedding
vector. -/
structure Record where
  key : String
  value : B64Pickle
  embedding : List Rat
deriving DecidableEq, Repr

/-- The backend state seen through the connector: whether the named
collection exists, the dimension its schema was created with, and its live
records. -/
structure MilvusState where
  hasCollection : Bool
  dim : Nat
  records : List Record
deriving DecidableEq, Repr

/-- Python keys: every operation stringifies its key with `str(key)`.  A key
is either already a string or some other value with a string form; strings
and integers cover both cases. -/
inductive PyKey where
  | str (s : String)
  | int (n : Int)
deriving DecidableEq, Repr

/-- `str(key)` (e.g. line 69, 85, 123, 131). -/
def pyStr : PyKey → String
  | .str s => s
  | .int n => toString n

/-- The argument of `__setitem__`: either a dict with `"value"` and
`"embedding"` entries (the embedding possibly `None`), or anything else
(`malformed`), which fails the `isinstance`/membership check of line 88. -/
inductive SetArg where
  | dict (value : Payload) (embedding : Option (List Rat))
  | malformed
deriving DecidableEq, Repr

/-- Errors surfaced by the store: `KeyError` (`KeyNotFound`), `ValueError`
(`InvalidValue`), and exceptions raised by the Milvus client itself. -/
inductive LTMError where
  | keyNotFound
  | invalidValue
  | backendError
deriving DecidableEq, Repr

deriving instance DecidableEq for Except

namespace MilvusLTM

/-- The connector query `query(name, 'key == "k"', output_fields=...)`,
embedded as the sublist of records whose key equals `ks`. -/
def queryByKey (st : MilvusState) (ks : String) : List Record :=
  st.records.filter (fun r => r.key == ks)

/-- `_create_collection` (lines 22-66): create the collection with the
configured dimension iff it does not already exist. -/
def create_collection (cfgDim : Nat) (st : MilvusState) : MilvusState :=
  if st.hasCollection then st else { hasCollection := true, dim := cfgDim, records := [] }

/-- `__getitem__` (lines 68-80): query by key, decode the first result's
value, raise `KeyError` when the query is empty. -/
def getitem (st : MilvusState) (key : PyKey) : Except LTMError Payload :=
  match queryByKey st (pyStr key) with
  | [] => .error .keyNotFound
  | r :: _ => .ok (pickle_loads_b64 r.value)

/-- `__contains__` (lines 130-139): query by key, true iff the result is
non-empty (`len(res) > 0`). -/
def contains (st : MilvusState) (key : PyKey) : Bool :=
  (queryByKey st (pyStr key)).length > 0

/-- The connector delete `delete(name, 'key == "k"')`: drop every record
whose key equals `ks`. -/
def deleteByKey (st : MilvusState) (ks : String) : MilvusState :=
  { st with records := st.records.filter (fun r => r.key != ks) }

/-- `__delitem__` (lines 122-128): existence pre-check, then delete by key
filter; `KeyError` when absent. -/
def delitem (st : MilvusState) (key : PyKey) : Except LTMError MilvusState :=
  let ks := pyStr key
  if contains st (.str ks) then .ok (deleteByKey st ks) else .error .keyNotFound

/-- The connector insert (lines 118-120) as Milvus performs it: reject a
vector whose length differs from the collection's schema dimension,
otherwise append the record (Milvus does not deduplicate primary keys on
plain insert, which is why the source deletes first). -/
def insertRecord (st : MilvusState) (r : Record) : Except LTMError MilvusState :=
  if r.embedding.length == st.dim then .ok { st with records := st.records ++ [r] }
  else .error .backendError

/-- `__setitem__` (lines 82-120).  The pair returned is the state reached
together with the error raised, if any: a Python exception leaves the side
effects already performed (collection creation, deletion of the prior
record) in place.  Order of the source: create the collection, stringify the
key, check the dict shape, serialize, check the embedding is not `None`,
delete the key if present, insert. -/
def setitem (cfgDim : Nat) (st : MilvusState) (key : PyKey) (v : SetArg) :
    MilvusState × Option LTMError :=
  let st1 := create_collection cfgDim st
  let ks := pyStr key
  match v with
  | .malformed => (st1, some .invalidValue)
  | .dict value embedding =>
    let encoded := pickle_dumps_b64 value
    match embedding with
    | none => (st1, some .invalidValue)
    | some emb =>
      let st2 := if contains st1 (.str ks) then deleteByKey st1 ks else st1
      match insertRecord st2 { key := ks, value := encoded, embedding := emb } with
      | .ok st3 => (st3, none)
      | .error e => (st2, some e)

/-- `__len__` (lines 147-153): count the records matching `key != ""`. -/
def len (st : MilvusState) : Nat :=
  (st.records.filter (fun r => r.key != "")).length

/-- `values` (lines 162-172): decode the value of every record matching
`key != ""`, in order. -/
def values (st : MilvusState) : List Payload :=
  (st.records.filter (fun r => r.key != "")).map (fun r => pickle_loads_b64 r.value)

/-- `items` (lines 174-184): key/decoded-value pairs of every record
matching `key != ""`, in order. -/
def items (st : MilvusState) : List (String × Payload) :=
  (st.records.filter (fun r => r.key != "")).map (fun r => (r.key, pickle_loads_b64 r.value))

/-- `get` (lines 186-190): `__getitem__`, with `KeyError` turned into the
supplied default. -/
def get (st : MilvusState) (key : PyKey) (default : Payload) : Except LTMError Payload :=
  match getitem st key with
  | .ok v => .ok v
  | .error .keyNotFound => .ok default
  | .error e => .error e

/-- `clear` (lines 192-196): delete every record matching `key != ""`,
keeping the collection itself. -/
def clear (st : MilvusState) : MilvusState :=
  { st with records := st.records.filter (fun r => r.key == "") }

/-- One scored match returned by the connector's vector `search`
(lines 220-228): the requested output fields and the `distance` score. -/
structure SearchMatch where
  key : String
  value : B64Pickle
  distance : Rat
deriving DecidableEq, Repr

/-- The result-processing loop of `get_by_vector` (lines 230-240), applied
to the matches the backend returned for the query vector (`results[0]`):
decode each match and keep it iff `distance >= threshold`; the threshold
defaults to `0.0` as in the source signature (line 214). -/
def get_by_vector (results : List SearchMatch) (threshold : Rat := 0) :
    List (String × Payload × Rat) :=
  match results with
  | [] => []
  | m :: rest =>
    if m.distance ≥ threshold then
      (m.key, pickle_loads_b64 m.value, m.distance) :: get_by_vector rest threshold
    else
      get_by_vector rest threshold

/-- Per-key uniqueness of the live records: no two records share a key. -/
def uniqueKeys (st : MilvusState) : Prop :=
  st.records.Pairwise (fun a b => a.key ≠ b.key)

instance (st : MilvusState) : Decidable (uniqueKeys st) := by
  unfold uniqueKeys
  infer_instance

/-- `str` of a string key is itself. -/
@[simp] lemma pyStr_str (s : String) : pyStr (.str s) = s := rfl

/-- After `_create_collection` the collection always exists. -/
lemma create_collection_hasCollection (cfgDim : Nat) (st : MilvusState) :
    (create_collection cfgDim st).hasCollection = true := by
  unfold create_collection
  split <;> simp_all

/-- `_create_collection` is the identity on a state whose collection already
exists. -/
lemma create_collection_of_has (cfgDim : Nat) (st : MilvusState) (h : st.hasCollection = true) :
    create_collection cfgDim st = st := by
  unfold create_collection
  simp [h]

/-- Deleting the records with key `ks` leaves nothing with key `ks`. -/
lemma filter_key_of_filter_ne (ks : String) (l : List Record) :
    (l.filter (fun r => r.key != ks)).filter (fun r => r.key == ks) = [] := by
  induction l with
  | nil => rfl
  | cons a t ih =>
    by_cases h : a.key = ks
    · simp [List.filter_cons, h, ih]
    · simp [List.filter_cons, h, ih]

/-- When `__contains__` is false, the key filter selects nothing. -/
lemma contains_false_filter (st : MilvusState) (ks : String)
    (hc : contains st (.str ks) = false) :
    st.records.filter (fun r => r.key == ks) = [] := by
  simp [contains, queryByKey, pyStr] at hc
  rw [List.filter_eq_nil_iff]
  intro a ha
  simpa using hc a ha

/-- A valid `__setitem__` (well-shaped dict, embedding of the schema
dimension) raises no error, leaves the collection in place with its
dimension, and leaves exactly the freshly inserted record under the written
key. -/
lemma setitem_valid (cfgDim : Nat) (st : MilvusState) (key : PyKey) (p : Payload)
    (emb : List Rat) (he : emb.length = (create_collection cfgDim st).dim) :
    (setitem cfgDim st key (.dict p (some emb))).2 = none ∧
    (setitem cfgDim st key (.dict p (some emb))).1.hasCollection = true ∧
    (setitem cfgDim st key (.dict p (some emb))).1.dim = (create_collection cfgDim st).dim ∧
    queryByKey (setitem cfgDim st key (.dict p (some emb))).1 (pyStr key) =
      [⟨pyStr key, pickle_dumps_b64 p, emb⟩] := by
  unfold setitem
  simp only [insertRecord]
  by_cases hc : contains (create_collection cfgDim st) (PyKey.str (pyStr key)) = true
  · simp [hc, deleteByKey, he, queryByKey, List.filter_append, filter_key_of_filter_ne,
      create_collection_hasCollection]
  · simp [hc, he, queryByKey, List.filter_append,
      contains_false_filter _ _ ((Bool.not_eq_true _).mp hc),
      create_collection_hasCollection]

/-- The loop of `get_by_vector` computes the threshold filter of the
backend's matches, decoded in backend order. -/
lemma get_by_vector_eq (t : Rat) (results : List SearchMatch) :
    get_by_vector results t =
      (results.filter (fun m => m.distance ≥ t)).map
        (fun m => (m.key, pickle_loads_b64 m.value, m.distance)) := by
  induction results with
  | nil => rfl
  | cons m rest ih =>
    by_cases h : m.distance ≥ t
    · simp [get_by_vector, List.filter_cons, h, ih]
    · simp [get_by_vector, List.filter_cons, h, ih]

/-- `_create_collection` preserves per-key uniqueness. -/
lemma uniqueKeys_create (cfgDim : Nat) (st : MilvusState) (hu : uniqueKeys st) :
    uniqueKeys (create_collection cfgDim st) := by
  unfold create_collection
  split
  · exact hu
  · simp [uniqueKeys]

/-- Deleting by key preserves per-key uniqueness. -/
lemma uniqueKeys_deleteByKey (st : MilvusState) (ks : String) (hu : uniqueKeys st) :
    uniqueKeys (deleteByKey st ks) :=
  List.Pairwise.sublist (List.filter_sublist _) hu

/-- After the delete-if-present step of `__setitem__`, no surviving record
carries the written key. -/
lemma st2_no_key (st1 : MilvusState) (ks : String) :
    ∀ a ∈ (if contains st1 (.str ks) then deleteByKey st1 ks else st1).records, a.key ≠ ks := by
  split
  · intro a ha
    have h := List.mem_filter.mp ha
    simpa using h.2
  · next hc =>
    intro a ha
    have hf := contains_false_filter st1 ks (by simpa using hc)
    rw [List.filter_eq_nil_iff] at hf
    simpa using hf a ha

/-- Whatever its argument and outcome, `__setitem__` leaves the collection
existing: `_create_collection` runs before any validation. -/
lemma setitem_hasCollection (cfgDim : Nat) (st : MilvusState) (key : PyKey) (v : SetArg) :
    (setitem cfgDim st key v).1.hasCollection = true := by
  cases v with
  | malformed => simp [setitem, create_collection_hasCollection]
  | dict p emb =>
    cases emb with
    | none => simp [setitem, create_collection_hasCollection]
    | some e =>
      unfold setitem
      simp only [insertRecord]
      by_cases hc : contains (create_collection cfgDim st) (PyKey.str (pyStr key)) = true
      · by_cases hd : e.length = (create_collection cfgDim st).dim
        · simp [hc, hd, deleteByKey, create_collection_hasCollection]
        · simp [hc, hd, deleteByKey, create_collection_hasCollection]
      · by_cases hd : e.length = (create_collection cfgDim st).dim
        · simp [hc, hd, create_collection_hasCollection]
        · simp [hc, hd, create_collection_hasCollection]

/-- `__setitem__` preserves per-key uniqueness on every control path:
rejected values leave the records untouched, and an accepted write deletes
the key before appending the one new record. -/
lemma setitem_uniqueKeys (cfgDim : Nat) (st : MilvusState) (key : PyKey) (v : SetArg)
    (hu : uniqueKeys st) : uniqueKeys (setitem cfgDim st key v).1 := by
  have h1 : uniqueKeys (create_collection cfgDim st) := uniqueKeys_create cfgDim st hu
  have h2 : uniqueKeys (if contains (create_collection cfgDim st) (.str (pyStr key))
      then deleteByKey (create_collection cfgDim st) (pyStr key)
      else create_collection cfgDim st) := by
    split
    · exact uniqueKeys_deleteByKey _ _ h1
    · exact h1
  have h3 := st2_no_key (create_collection cfgDim st) (pyStr key)
  cases v with
  | malformed => simpa [setitem] using h1
  | dict p emb =>
    cases emb with
    | none => simpa [setitem] using h1
    | some e =>
      unfold setitem
      simp only [insertRecord]
      by_cases hc : contains (create_collection cfgDim st) (PyKey.str (pyStr key)) = true
      · by_cases hd : e.length = (create_collection cfgDim st).dim
        all_goals
          simp only [hc, if_true, deleteByKey] at h2 h3 ⊢
          simp [hd, uniqueKeys] at h2 ⊢
        · refine List.pairwise_append.mpr ⟨h2, List.pairwise_singleton _ _, ?_⟩
          intro a ha b hb
          simp at hb
          subst hb
          exact h3 a ha
        · exact h2
      · by_cases hd : e.length = (create_collection cfgDim st).dim
        all_goals
          simp only [hc, if_false] at h2 h3 ⊢
          simp [hc, hd, uniqueKeys] at h2 ⊢
        · refine List.pairwise_append.mpr ⟨h2, List.pairwise_singleton _ _, ?_⟩
          intro a ha b hb
          simp at hb
          subst hb
          exact h3 a ha
        · exact h2

/-- Erasing a record whose key is empty does not change the result of the
`key != ""` filter used by `__len__`, `values`, `items` and `clear`. -/
lemma filter_ne_erase (r : Record) (l : List Record) (hk : r.key = "") :
    (l.erase r).filter (fun x => x.key != "") = l.filter (fun x => x.key != "") := by
  induction l with
  | nil => rfl
  | cons a t ih =>
    rw [List.erase_cons]
    by_cases h : a = r
    · subst h
      simp [List.filter_cons, hk]
    · have hne : (a == r) = false := by simpa using h
      simp [hne, List.filter_cons, ih]

/-- C1: for every key, payload, and embedding whose length equals the
collection dimension, `set(key, payload, embedding)` raises no error and a
subsequent `get(key)` returns a value equal to `payload`: the payload
round-trips through the store's pickle/base64 encoding. -/
theorem set_then_get_roundtrip (cfgDim : Nat) (st : MilvusState) (key : PyKey)
    (p : Payload) (emb : List Rat)
    (he : emb.length = (create_collection cfgDim st).dim) :
    (setitem cfgDim st key (.dict p (some emb))).2 = none ∧
    getitem (setitem cfgDim st key (.dict p (some emb))).1 key = .ok p := by
  obtain ⟨h1, -, -, h4⟩ := setitem_valid cfgDim st key p emb he
  exact ⟨h1, by simp [getitem, h4, pickle_loads_b64, pickle_dumps_b64]⟩

/-- Witness for C1 at a concrete store: writing `"v"` under key `"k"` with a
dimension-2 embedding and reading it back. -/
theorem set_then_get_roundtrip_witness :
    ([(1 : Rat), 0].length = (create_collection 2 ⟨false, 2, []⟩).dim) ∧
    getitem (setitem 2 ⟨false, 2, []⟩ (.str "k") (.dict (.pstr "v") (some [1, 0]))).1 (.str "k")
      = .ok (.pstr "v") :=
  ⟨by decide, (set_then_get_roundtrip 2 ⟨false, 2, []⟩ (.str "k") (.pstr "v") [1, 0] (by decide)).2⟩

/-- C2: per-key uniqueness is an invariant of every operation (a set deletes
the prior record for the key before inserting the new one; delete and clear
only remove records), and writing the same key twice with different payloads
leaves exactly one record for that key, carrying the second payload. -/
theorem overwrite_spec (cfgDim : Nat) (st : MilvusState) (key : PyKey)
    (p1 p2 : Payload) (e1 e2 : List Rat) (v : SetArg)
    (hu : uniqueKeys st)
    (h1 : e1.length = (create_collection cfgDim st).dim)
    (h2 : e2.length = (create_collection cfgDim st).dim) :
    uniqueKeys (setitem cfgDim st key v).1
    ∧ (∀ st', delitem st key = .ok st' → uniqueKeys st')
    ∧ uniqueKeys (clear st)
    ∧ queryByKey (setitem cfgDim (setitem cfgDim st key (.dict p1 (some e1))).1 key
        (.dict p2 (some e2))).1 (pyStr key) = [⟨pyStr key, pickle_dumps_b64 p2, e2⟩] := by
  refine ⟨setitem_uniqueKeys _ _ _ _ hu, ?_, ?_, ?_⟩
  · intro st' h
    simp only [delitem] at h
    split at h
    · cases h
      exact uniqueKeys_deleteByKey _ _ hu
    · cases h
  · exact List.Pairwise.sublist (List.filter_sublist _) hu
  · obtain ⟨-, hA, hD, -⟩ := setitem_valid cfgDim st key p1 e1 h1
    have he2 : e2.length =
        (create_collection cfgDim (setitem cfgDim st key (.dict p1 (some e1))).1).dim := by
      rw [create_collection_of_has _ _ hA, hD]
      exact h2
    exact (setitem_valid cfgDim _ key p2 e2 he2).2.2.2

/-- Witness for C2 at a concrete store: two writes to `"k"` leave exactly
the second record. -/
theorem overwrite_spec_witness :
    uniqueKeys (⟨false, 2, []⟩ : MilvusState) ∧
    queryByKey (setitem 2 (setitem 2 ⟨false, 2, []⟩ (.str "k") (.dict (.pstr "a") (some [1, 0]))).1
      (.str "k") (.dict (.pstr "b") (some [0, 1]))).1 "k"
      = [⟨"k", pickle_dumps_b64 (.pstr "b"), [0, 1]⟩] :=
  ⟨by decide, (overwrite_spec 2 ⟨false, 2, []⟩ (.str "k") (.pstr "a") (.pstr "b") [1, 0] [0, 1]
    .malformed (by decide) (by decide) (by decide)).2.2.2⟩

/-- C3, evaluated at the failing input: on a dimension-2 collection holding
a record under `"k"`, a set of `"k"` with a length-1 embedding is NOT
rejected with `InvalidValue` and does NOT preserve the prior value — the
store deletes the prior record first, the backend then rejects the insert,
and the subsequent `get("k")` fails with `KeyNotFound`. -/
theorem wrong_dim_set_loses_prior :
    (setitem 2 ⟨true, 2, [⟨"k", pickle_dumps_b64 (.pstr "old"), [1, 1]⟩]⟩ (.str "k")
        (.dict (.pstr "new") (some [1]))).2 = some .backendError ∧
    (setitem 2 ⟨true, 2, [⟨"k", pickle_dumps_b64 (.pstr "old"), [1, 1]⟩]⟩ (.str "k")
        (.dict (.pstr "new") (some [1]))).1.records = [] ∧
    getitem (setitem 2 ⟨true, 2, [⟨"k", pickle_dumps_b64 (.pstr "old"), [1, 1]⟩]⟩ (.str "k")
        (.dict (.pstr "new") (some [1]))).1 (.str "k") = .error .keyNotFound := by
  decide

/-- Counterexample to C4 as stated: starting with no collection, a set call
rejected for invalid value shape still flips the collection-existence state
from absent to present, because `_create_collection` runs before the
validation. -/
theorem rejected_set_creates_collection :
    ((⟨false, 128, []⟩ : MilvusState).hasCollection = false) ∧
    (setitem 128 ⟨false, 128, []⟩ (.str "k") .malformed).2 = some .invalidValue ∧
    (setitem 128 ⟨false, 128, []⟩ (.str "k") .malformed).1.hasCollection = true := by
  decide

/-- C4 as amended: the collection is created as a side effect of every set
call, rejected or not (creation precedes validation); a malformed set is
still rejected with `InvalidValue`; delete and clear never change
collection existence (and reads are pure queries that touch no state). -/
theorem collection_creation_spec (cfgDim : Nat) (st : MilvusState) (key : PyKey) (v : SetArg) :
    (setitem cfgDim st key v).1.hasCollection = true
    ∧ (setitem cfgDim st key .malformed).2 = some .invalidValue
    ∧ (clear st).hasCollection = st.hasCollection
    ∧ (∀ st', delitem st key = .ok st' → st'.hasCollection = st.hasCollection) := by
  refine ⟨setitem_hasCollection cfgDim st key v, by simp [setitem], rfl, ?_⟩
  intro st' h
  simp only [delitem] at h
  split at h
  · cases h
    rfl
  · cases h

/-- Witness for C4's amended theorem at a concrete store. -/
theorem collection_creation_spec_witness :
    (setitem 128 ⟨false, 128, []⟩ (.str "k") .malformed).1.hasCollection = true ∧
    (clear ⟨false, 128, []⟩).hasCollection = (⟨false, 128, []⟩ : MilvusState).hasCollection :=
  ⟨(collection_creation_spec 128 ⟨false, 128, []⟩ (.str "k") .malformed).1,
   (collection_creation_spec 128 ⟨false, 128, []⟩ (.str "k") .malformed).2.2.1⟩

/-- Counterexample to C5 as stated: called without an explicit threshold,
`get_by_vector` does filter — a backend candidate with negative cosine
similarity (here score -1) is dropped even though the backend returned it. -/
theorem get_by_vector_default_drops_negative :
    get_by_vector [⟨"k", pickle_dumps_b64 (.pstr "v"), -1⟩] = [] ∧
    ([⟨"k", pickle_dumps_b64 (.pstr "v"), -1⟩] : List SearchMatch).length = 1 := by
  decide

/-- C5 as amended: without an explicit threshold the default `0.0` applies,
so the result is exactly the backend candidates with score at least 0, in
backend order — candidates with negative scores are filtered out. -/
theorem get_by_vector_default_filters_nonneg (results : List SearchMatch) :
    get_by_vector results =
      (results.filter (fun m => m.distance ≥ 0)).map
        (fun m => (m.key, pickle_loads_b64 m.value, m.distance)) :=
  get_by_vector_eq 0 results

/-- C6: for every explicit threshold `t`, `get_by_vector` returns exactly
the backend candidates whose score is at least `t`, as (key, payload, score)
tuples in backend order; an empty candidate list (empty collection) yields
an empty result rather than an error. -/
theorem get_by_vector_threshold_filters (results : List SearchMatch) (t : Rat) :
    get_by_vector results t =
      (results.filter (fun m => m.distance ≥ t)).map
        (fun m => (m.key, pickle_loads_b64 m.value, m.distance)) ∧
    get_by_vector ([] : List SearchMatch) t = [] :=
  ⟨get_by_vector_eq t results, rfl⟩

/-- C7: when no live record carries the key, `get(key)` fails with
`KeyNotFound`, while `get(key, default)` returns the supplied default. -/
theorem get_absent (st : MilvusState) (key : PyKey) (d : Payload)
    (h : ∀ r ∈ st.records, r.key ≠ pyStr key) :
    getitem st key = .error .keyNotFound ∧ get st key d = .ok d := by
  have hq : queryByKey st (pyStr key) = [] := by
    rw [queryByKey, List.filter_eq_nil_iff]
    intro a ha
    simpa using h a ha
  constructor
  · simp [getitem, hq]
  · simp [get, getitem, hq]

/-- Witness for C7 at a concrete store holding only key `"a"`. -/
theorem get_absent_witness :
    (∀ r ∈ (⟨true, 2, [⟨"a", pickle_dumps_b64 (.pstr "x"), [1, 0]⟩]⟩ : MilvusState).records,
      r.key ≠ pyStr (.str "b")) ∧
    get ⟨true, 2, [⟨"a", pickle_dumps_b64 (.pstr "x"), [1, 0]⟩]⟩ (.str "b") (.pstr "d")
      = .ok (.pstr "d") :=
  ⟨by decide,
   (get_absent ⟨true, 2, [⟨"a", pickle_dumps_b64 (.pstr "x"), [1, 0]⟩]⟩ (.str "b") (.pstr "d")
     (by decide)).2⟩

/-- C8: `delete(key)` on an absent key fails with `KeyNotFound` (after the
existence pre-check), on a present key it succeeds by deleting the key
filter, and after any successful delete a `get(key)` fails with
`KeyNotFound`. -/
theorem delete_absent_spec (st : MilvusState) (key : PyKey) :
    ((∀ r ∈ st.records, r.key ≠ pyStr key) → delitem st key = .error .keyNotFound)
    ∧ ((∃ r ∈ st.records, r.key = pyStr key) → delitem st key = .ok (deleteByKey st (pyStr key)))
    ∧ (∀ st', delitem st key = .ok st' → getitem st' key = .error .keyNotFound) := by
  refine ⟨?_, ?_, ?_⟩
  · intro h
    have hq : queryByKey st (pyStr key) = [] := by
      rw [queryByKey, List.filter_eq_nil_iff]
      intro a ha
      simpa using h a ha
    have hc : contains st (.str (pyStr key)) = false := by
      simp [contains, hq]
    simp [delitem, hc]
  · rintro ⟨r, hr, hkey⟩
    have hmem : r ∈ queryByKey st (pyStr key) := List.mem_filter.mpr ⟨hr, by simp [hkey]⟩
    have hpos : 0 < (queryByKey st (pyStr key)).length :=
      List.length_pos.mpr (List.ne_nil_of_mem hmem)
    have hc : contains st (.str (pyStr key)) = true := by simpa [contains] using hpos
    simp [delitem, hc]
  · intro st' h
    simp only [delitem] at h
    split at h
    · cases h
      simp [getitem, queryByKey, deleteByKey, List.filter_filter, bne, Bool.and_not_self]
    · cases h

/-- Witness for C8 at a concrete store: deleting absent `"b"` errors, and
after deleting present `"a"` the read fails. -/
theorem delete_absent_spec_witness :
    delitem ⟨true, 2, [⟨"a", pickle_dumps_b64 (.pstr "x"), [1, 0]⟩]⟩ (.str "b")
      = .error .keyNotFound ∧
    getitem (⟨true, 2, []⟩ : MilvusState) (.str "a") = .error .keyNotFound :=
  ⟨(delete_absent_spec ⟨true, 2, [⟨"a", pickle_dumps_b64 (.pstr "x"), [1, 0]⟩]⟩ (.str "b")).1
     (by decide),
   (delete_absent_spec ⟨true, 2, [⟨"a", pickle_dumps_b64 (.pstr "x"), [1, 0]⟩]⟩ (.str "a")).2.2
     ⟨true, 2, []⟩ (by decide)⟩

/-- C9: a record stored under the empty-string key survives `clear`, is
invisible to `len`, `values` and `items` (erasing it changes none of them,
since they all filter on `key != ""`), yet `contains("")` still reports it
and `get("")` still finds a value. -/
theorem empty_key_invisible (st : MilvusState) (r : Record)
    (hr : r ∈ st.records) (hk : r.key = "") :
    r ∈ (clear st).records
    ∧ len st = len ⟨st.hasCollection, st.dim, st.records.erase r⟩
    ∧ values st = values ⟨st.hasCollection, st.dim, st.records.erase r⟩
    ∧ items st = items ⟨st.hasCollection, st.dim, st.records.erase r⟩
    ∧ contains st (.str "") = true
    ∧ (∃ p, getitem st (.str "") = .ok p) := by
  have hmem : r ∈ queryByKey st "" := List.mem_filter.mpr ⟨hr, by simp [hk]⟩
  refine ⟨List.mem_filter.mpr ⟨hr, by simp [hk]⟩, ?_, ?_, ?_, ?_, ?_⟩
  · simp [len, filter_ne_erase r st.records hk]
  · simp [values, filter_ne_erase r st.records hk]
  · simp [items, filter_ne_erase r st.records hk]
  · have hpos : 0 < (queryByKey st "").length := List.length_pos.mpr (List.ne_nil_of_mem hmem)
    simpa [contains] using hpos
  · rcases hq : queryByKey st "" with - | ⟨q, rest⟩
    · rw [hq] at hmem
      exact absurd hmem (List.not_mem_nil r)
    · exact ⟨pickle_loads_b64 q.value, by simp [getitem, hq]⟩

/-- Witness for C9 at a concrete store holding an empty-key record and a
normal one. -/
theorem empty_key_invisible_witness :
    ((⟨"", pickle_dumps_b64 (.pstr "h"), [1, 0]⟩ : Record) ∈
      (clear ⟨true, 2, [⟨"", pickle_dumps_b64 (.pstr "h"), [1, 0]⟩,
        ⟨"a", pickle_dumps_b64 (.pstr "x"), [0, 1]⟩]⟩).records) ∧
    contains ⟨true, 2, [⟨"", pickle_dumps_b64 (.pstr "h"), [1, 0]⟩,
        ⟨"a", pickle_dumps_b64 (.pstr "x"), [0, 1]⟩]⟩ (.str "") = true :=
  ⟨(empty_key_invisible ⟨true, 2, [⟨"", pickle_dumps_b64 (.pstr "h"), [1, 0]⟩,
        ⟨"a", pickle_dumps_b64 (.pstr "x"), [0, 1]⟩]⟩
      ⟨"", pickle_dumps_b64 (.pstr "h"), [1, 0]⟩ (by decide) rfl).1,
   (empty_key_invisible ⟨true, 2, [⟨"", pickle_dumps_b64 (.pstr "h"), [1, 0]⟩,
        ⟨"a", pickle_dumps_b64 (.pstr "x"), [0, 1]⟩]⟩
      ⟨"", pickle_dumps_b64 (.pstr "h"), [1, 0]⟩ (by decide) rfl).2.2.2.2.1⟩

/-- C10: keys are stringified before use, so any key whose string form
equals the written key's aliases the same record: after `set(key, payload,
embedding)`, reading or testing membership with any `k2` satisfying
`str(k2) = str(key)` — in particular the string `str(key)` itself — yields
the written payload. -/
theorem key_aliasing (cfgDim : Nat) (st : MilvusState) (key k2 : PyKey)
    (p : Payload) (emb : List Rat)
    (hk : pyStr k2 = pyStr key)
    (he : emb.length = (create_collection cfgDim st).dim) :
    (setitem cfgDim st key (.dict p (some emb))).2 = none ∧
    getitem (setitem cfgDim st key (.dict p (some emb))).1 k2 = .ok p ∧
    contains (setitem cfgDim st key (.dict p (some emb))).1 k2 = true := by
  obtain ⟨h1, -, -, h4⟩ := setitem_valid cfgDim st key p emb he
  have hq : queryByKey (setitem cfgDim st key (.dict p (some emb))).1 (pyStr k2) =
      [⟨pyStr key, pickle_dumps_b64 p, emb⟩] := by
    rw [hk]
    exact h4
  refine ⟨h1, ?_, ?_⟩
  · simp [getitem, hq, pickle_loads_b64, pickle_dumps_b64]
  · simp [contains, hq]

/-- Witness for C10 at a concrete store: key `5` (an integer) written, then
read back through the string key `"5"`. -/
theorem key_aliasing_witness :
    (pyStr (.str "5") = pyStr (.int 5)) ∧
    getitem (setitem 2 ⟨false, 2, []⟩ (.int 5) (.dict (.pstr "v") (some [1, 0]))).1 (.str "5")
      = .ok (.pstr "v") :=
  ⟨by decide, (key_aliasing 2 ⟨false, 2, []⟩ (.int 5) (.str "5") (.pstr "v") [1, 0]
      (by decide) (by decide)).2.1⟩

end MilvusLTM
